import Mathlib

/-
Verification development for the llvm_lang front end.
Shallow embedding of src/parser.cpp, src/codegen.cpp and src/internal.cpp:
the token stream, the precedence-climbing parser, and the AST-to-IR
lowering pass (codegen) with its session state (module, FunctionProtos,
NamedValues). Numeric literals (C++ double) are modelled as exact
rationals; all inputs appearing in the theorems are small integers, which
both representations treat exactly.
-/

namespace Kal

/-- Tokens delivered by the external lexer, following the token model of the
language: end of input, the keyword set (def, extern, if/then/else,
for/do/end, binary, unary), identifiers and numbers with payloads, operator
prototype keywords carrying the operator symbol, and any other character
passed through as a raw character token (the C++ lexer returns the raw char
as the int token value). -/
inductive Tok where
  | eof
  | kwDef
  | kwExtern
  | kwIf
  | kwThen
  | kwElse
  | kwFor
  | kwDo
  | kwEnd
  | binary (opname : String)
  | unary (opname : String)
  | ident (s : String)
  | num (v : ℚ)
  | ch (c : Char)
deriving DecidableEq, Repr

/-- AST nodes as defined in ast.h and built by parser.cpp: NumberExprAST,
VariableExprAST, BinaryExprAST, CallExprAST, IfExprAST, ForExpr. -/
inductive Expr where
  | num (v : ℚ)
  | var (name : String)
  | bin (op : Char) (lhs rhs : Expr)
  | call (callee : String) (args : List Expr)
  | ite (cond thenE elseE : Expr)
  | forE (varName : String) (start cond step body : Expr)
deriving Repr

/-- PrototypeAST: name, ordered parameter names, operator flag (the parser
passes kind not equal to 0) and precedence (default 30). -/
structure Proto where
  name : String
  args : List String
  is_operator : Bool
  precedence : Nat
deriving DecidableEq, Repr

/-- FunctionAST: one prototype and one body expression. -/
structure FunctionDef where
  proto : Proto
  body : Expr

/-- cur_tok: the head of the remaining token stream; end of input once the
stream is exhausted. -/
def curTok : List Tok → Tok
  | [] => .eof
  | t :: _ => t

/-- get_next_token: advance the stream by one token. -/
def nextToks : List Tok → List Tok
  | [] => []
  | _ :: ts => ts

/-- BINOP_PRECEDENCE, the char-keyed precedence table consulted by the
parser (parser.cpp line 188). No code in the repository ever inserts into
or modifies this table; the string-keyed table in internal.cpp is never
consulted by the parser. -/
def BINOP_PRECEDENCE : List (Char × Int) := [('<', 10), ('+', 20), ('-', 20), ('*', 40)]

/-- get_tok_precedence (parser.cpp line 195): -1 unless the current token is
an ascii character with a positive entry in BINOP_PRECEDENCE. -/
def get_tok_precedence (ts : List Tok) : Int :=
  match curTok ts with
  | .ch c =>
    if 128 ≤ c.toNat then -1
    else
      match BINOP_PRECEDENCE.lookup c with
      | none => -1
      | some p => if p ≤ 0 then -1 else p
  | _ => -1

/-- The argument-name loop of parse_prototype (parser.cpp line 294): with
the opening parenthesis as the current token, repeatedly advance and
collect identifier tokens; stops at the first non-identifier, which remains
the current token. -/
def parse_args_loop : List Tok → List String × List Tok
  | [] => ([], [])
  | _ :: ts =>
    match ts with
    | .ident s :: _ =>
      let (rest, ts1) := parse_args_loop ts
      (s :: rest, ts1)
    | _ => ([], ts)

/-- Tail of parse_prototype after name, kind and precedence have been
determined (parser.cpp lines 287 to 306): parenthesized parameter list,
then the operand-count check for operator kinds. -/
def parse_prototype_rest (fn_name : String) (kind : Nat) (precedence : Nat)
    (ts : List Tok) : Except String (Proto × List Tok) :=
  if curTok ts ≠ .ch '(' then .error "Expected \x27(\x27 in prototype"
  else
    let (arg_names, ts1) := parse_args_loop ts
    if curTok ts1 ≠ .ch ')' then .error "Expected \x27)\x27 in prototype"
    else
      let ts2 := nextToks ts1
      if kind ≠ 0 ∧ arg_names.length ≠ kind then
        .error "Invalid number of operands for operator."
      else .ok (⟨fn_name, arg_names, kind != 0, precedence⟩, ts2)

/-- parse_prototype (parser.cpp line 260): an identifier prototype, or the
binary keyword with its operator symbol and an optional precedence literal
in 1..100; every other token kind, including the unary keyword, falls to
the default case and is a diagnostic. -/
def parse_prototype (ts : List Tok) : Except String (Proto × List Tok) :=
  match curTok ts with
  | .ident s => parse_prototype_rest s 0 30 (nextToks ts)
  | .binary opname =>
    let fn_name := "binary" ++ opname
    let ts1 := nextToks ts
    match curTok ts1 with
    | .num v =>
      if v < 1 ∨ v > 100 then .error "Invalid precedence: must be 1..100"
      else parse_prototype_rest fn_name 2 v.floor.toNat (nextToks ts1)
    | _ => parse_prototype_rest fn_name 2 30 ts1
  | _ => .error "Expected function name in prototype"

mutual

/-- parse_primary (parser.cpp line 169): dispatch on the current token.
Recursion is bounded by an explicit fuel parameter; the C++ functions
recurse without bound on the (finite) token stream, and every theorem below
supplies ample fuel for its concrete input. -/
def parse_primary (fuel : Nat) (ts : List Tok) : Except String (Expr × List Tok) :=
  match fuel with
  | 0 => .error "out of fuel"
  | fuel + 1 =>
    match curTok ts with
    | .ident s => parse_identifier_rest fuel s (nextToks ts)
    | .num v => .ok (.num v, nextToks ts)
    | .ch '(' => parse_paren_rest fuel (nextToks ts)
    | .kwIf => parse_if_rest fuel (nextToks ts)
    | .kwFor => parse_for_rest fuel (nextToks ts)
    | _ => .error "unknown token when expecting an expression"

/-- parse_identifier_expr after the identifier has been consumed
(parser.cpp line 132): plain variable reference, or a call with a
comma-separated argument list. -/
def parse_identifier_rest (fuel : Nat) (id_name : String) (ts : List Tok) :
    Except String (Expr × List Tok) :=
  match fuel with
  | 0 => .error "out of fuel"
  | fuel + 1 =>
    if curTok ts ≠ .ch '(' then .ok (.var id_name, ts)
    else
      let ts1 := nextToks ts
      if curTok ts1 = .ch ')' then .ok (.call id_name [], nextToks ts1)
      else
        match parse_call_args fuel ts1 with
        | .error e => .error e
        | .ok (args, ts2) => .ok (.call id_name args, nextToks ts2)

/-- The argument loop inside parse_identifier_expr (parser.cpp line 144):
parse an expression, stop at a closing parenthesis (left as the current
token for the caller to eat), expect a comma otherwise. -/
def parse_call_args (fuel : Nat) (ts : List Tok) : Except String (List Expr × List Tok) :=
  match fuel with
  | 0 => .error "out of fuel"
  | fuel + 1 =>
    match parse_expression fuel ts with
    | .error e => .error e
    | .ok (arg, ts1) =>
      if curTok ts1 = .ch ')' then .ok ([arg], ts1)
      else if curTok ts1 ≠ .ch ',' then .error "Expected \x27)\x27 or \x27,\x27 in argument list"
      else
        match parse_call_args fuel (nextToks ts1) with
        | .error e => .error e
        | .ok (args, ts2) => .ok (arg :: args, ts2)

/-- parse_paren_expr after the opening parenthesis has been consumed
(parser.cpp line 32). -/
def parse_paren_rest (fuel : Nat) (ts : List Tok) : Except String (Expr × List Tok) :=
  match fuel with
  | 0 => .error "out of fuel"
  | fuel + 1 =>
    match parse_expression fuel ts with
    | .error e => .error e
    | .ok (v, ts1) =>
      if curTok ts1 ≠ .ch ')' then .error "expected \x27)\x27"
      else .ok (v, nextToks ts1)

/-- parse_if_expr after the if keyword has been consumed (parser.cpp
line 45); a missing else branch defaults to the literal 0. -/
def parse_if_rest (fuel : Nat) (ts : List Tok) : Except String (Expr × List Tok) :=
  match fuel with
  | 0 => .error "out of fuel"
  | fuel + 1 =>
    match parse_expression fuel ts with
    | .error e => .error e
    | .ok (cond, ts1) =>
      if curTok ts1 ≠ .kwThen then .error "expected `then`"
      else
        match parse_expression fuel (nextToks ts1) with
        | .error e => .error e
        | .ok (thenE, ts2) =>
          if curTok ts2 = .kwElse then
            match parse_expression fuel (nextToks ts2) with
            | .error e => .error e
            | .ok (elseE, ts3) => .ok (.ite cond thenE elseE, ts3)
          else .ok (.ite cond thenE (.num 0), ts2)

/-- parse_for_expr after the for keyword has been consumed (parser.cpp
line 73). Failure of a sub-expression is reported with the wrapping
diagnostic of the corresponding log_error call; the spelling separtor is
the spelling in the source. -/
def parse_for_rest (fuel : Nat) (ts : List Tok) : Except String (Expr × List Tok) :=
  match fuel with
  | 0 => .error "out of fuel"
  | fuel + 1 =>
    match curTok ts with
    | .ident varName =>
      let ts1 := nextToks ts
      if curTok ts1 ≠ .ch '=' then .error "Expected `=` after identifier for initialization."
      else
        match parse_expression fuel (nextToks ts1) with
        | .error _ => .error "Error parsing initialization in for statement."
        | .ok (start, ts2) =>
          if curTok ts2 ≠ .ch ',' then
            .error "Missing \x27,\x27 separtor in for statement after initialization."
          else
            match parse_expression fuel (nextToks ts2) with
            | .error _ => .error "Error parsing condition in for statement."
            | .ok (cond, ts3) =>
              if curTok ts3 ≠ .ch ',' then
                .error "Missing \x27,\x27 separtor in for statement after condition."
              else
                match parse_expression fuel (nextToks ts3) with
                | .error _ => .error "Error parsing step in for statement."
                | .ok (step, ts4) =>
                  if curTok ts4 ≠ .kwDo then .error "Expected `do` in for statement."
                  else
                    match parse_expression fuel (nextToks ts4) with
                    | .error _ => .error "Error parsing body in for statement."
                    | .ok (body, ts5) =>
                      if curTok ts5 ≠ .kwEnd then .error "Missing `end`."
                      else .ok (.forE varName start cond step body, nextToks ts5)
    | _ => .error "Expected identifier after `for`"

/-- parse_binop_rhs (parser.cpp line 211): precedence climbing. The C++
while loop is the tail-recursive call with the accumulated left operand.
Reaching the operator branch forces a positive table precedence, so the
current token is then a raw character; the final fallback is unreachable
and returns the left operand like the guard. -/
def parse_binop_rhs (fuel : Nat) (expr_prec : Int) (lhs : Expr) (ts : List Tok) :
    Except String (Expr × List Tok) :=
  match fuel with
  | 0 => .error "out of fuel"
  | fuel + 1 =>
    let tok_prec := get_tok_precedence ts
    if tok_prec < expr_prec then .ok (lhs, ts)
    else
      match curTok ts with
      | .ch binop =>
        match parse_primary fuel (nextToks ts) with
        | .error e => .error e
        | .ok (rhs, ts1) =>
          let next_prec := get_tok_precedence ts1
          if tok_prec < next_prec then
            match parse_binop_rhs fuel (tok_prec + 1) rhs ts1 with
            | .error e => .error e
            | .ok (rhs2, ts2) => parse_binop_rhs fuel expr_prec (.bin binop lhs rhs2) ts2
          else parse_binop_rhs fuel expr_prec (.bin binop lhs rhs) ts1
      | _ => .ok (lhs, ts)

/-- parse_expression (parser.cpp line 250): a primary followed by the
operator tail, starting at minimum precedence 0. -/
def parse_expression (fuel : Nat) (ts : List Tok) : Except String (Expr × List Tok) :=
  match fuel with
  | 0 => .error "out of fuel"
  | fuel + 1 =>
    match parse_primary fuel ts with
    | .error e => .error e
    | .ok (lhs, ts1) => parse_binop_rhs fuel 0 lhs ts1

end

/-- Values of the lowering pass (llvm::Value): floating constants
(ConstantFP), references to function arguments, and results of emitted
instructions (phi and call results included), identified by a fresh id. -/
inductive Value where
  | constFP (v : ℚ)
  | argRef (fn : String) (i : Nat)
  | inst (id : Nat)
deriving DecidableEq, Repr

/-- Instruction kinds emitted by codegen.cpp: the arithmetic and comparison
instructions of BinaryExprAST, the call instruction, phi nodes, branches
and returns. -/
inductive InstrK where
  | fadd (l r : Value)
  | fsub (l r : Value)
  | fmul (l r : Value)
  | fcmpULT (l r : Value)
  | uitofp (v : Value)
  | fcmpONE (l r : Value)
  | call (fn : String) (args : List Value)
  | phi
  | br (bb : Nat)
  | condbr (c : Value) (t f : Nat)
  | ret (v : Value)
deriving DecidableEq, Repr

/-- One emitted instruction: its id, the basic block it sits in, and its
kind. The instruction list of the state is a chronological emission log;
block membership is the bb field. -/
structure EmittedInstr where
  id : Nat
  bb : Nat
  k : InstrK
deriving DecidableEq, Repr

/-- A function of the current module (llvm::Function): its argument names
and whether it has any basic blocks yet (F->empty() is the negation). -/
structure FnInfo where
  args : List String
  hasBlocks : Bool
deriving DecidableEq, Repr

/-- The lowering state: fresh-id counter, builder insert block, emission
log, phi incoming edges (phi id, predecessor block, value, chronological),
NamedValues, the functions of TheModule, FunctionProtos, and the
diagnostics printed by log_error. -/
structure CGState where
  nextId : Nat
  curBB : Nat
  instrs : List EmittedInstr
  phiIncoming : List (Nat × Nat × Value)
  namedValues : String → Option Value
  modFns : String → Option FnInfo
  protos : String → Option Proto
  diags : List String

/-- The session state at startup: empty module, empty registries. -/
def initState : CGState :=
  ⟨0, 0, [], [], fun _ => none, fun _ => none, fun _ => none, []⟩

/-- log_error: print a diagnostic (recorded in order). -/
def logErr (msg : String) (s : CGState) : CGState :=
  { s with diags := s.diags ++ [msg] }

/-- log_error_v: print a diagnostic and return a null value. -/
def logErrV (msg : String) (s : CGState) : Option Value × CGState :=
  (none, logErr msg s)

/-- Emit one instruction into the current insert block, returning its id. -/
def emitI (k : InstrK) (s : CGState) : Nat × CGState :=
  (s.nextId, { s with
    nextId := s.nextId + 1
    instrs := s.instrs ++ [⟨s.nextId, s.curBB, k⟩] })

/-- Emit one instruction and return its result value. -/
def emit (k : InstrK) (s : CGState) : Value × CGState :=
  (.inst (emitI k s).1, (emitI k s).2)

/-- BasicBlock::Create: allocate a fresh block label. The ordering of
blocks inside a function (f->insert) has no observable effect here and is
not tracked. -/
def newBB (s : CGState) : Nat × CGState :=
  (s.nextId, { s with nextId := s.nextId + 1 })

/-- Builder->SetInsertPoint. -/
def setBB (b : Nat) (s : CGState) : CGState :=
  { s with curBB := b }

/-- NamedValues assignment; none models a null or absent map entry (the two
are indistinguishable to every reader of the map). -/
def setNV (n : String) (v : Option Value) (s : CGState) : CGState :=
  { s with namedValues := fun m => if m = n then v else s.namedValues m }

/-- PHINode::addIncoming: record one (predecessor block, value) edge for
the phi. The first argument is always the phi value in the code below. -/
def addIncoming (phiV : Value) (bb : Nat) (v : Value) (s : CGState) : CGState :=
  match phiV with
  | .inst id => { s with phiIncoming := s.phiIncoming ++ [(id, bb, v)] }
  | _ => s

/-- Instruction::eraseFromParent for a single instruction. -/
def eraseInstr (id : Nat) (s : CGState) : CGState :=
  { s with instrs := s.instrs.filter (fun i => i.id ≠ id) }

/-- Update of the module function table. -/
def setFn (n : String) (v : Option FnInfo) (s : CGState) : CGState :=
  { s with modFns := fun m => if m = n then v else s.modFns m }

/-- FunctionProtos assignment. -/
def setProto (n : String) (p : Option Proto) (s : CGState) : CGState :=
  { s with protos := fun m => if m = n then p else s.protos m }

/-- PrototypeAST::codegen (codegen.cpp line 84): create a declaration (no
blocks) with the argument names of the prototype. Function::Create is an
LLVM primitive that renames the new function when the symbol already
exists in the module; one fresh numeric suffix models that (the renaming
path is not reached by any theorem below). -/
def protoCodegen (p : Proto) (s : CGState) : (String × FnInfo) × CGState :=
  let fname :=
    match s.modFns p.name with
    | none => p.name
    | some _ => p.name ++ "." ++ toString s.nextId
  let info : FnInfo := ⟨p.args, false⟩
  ((fname, info),
   { s with
     nextId := s.nextId + 1
     modFns := fun m => if m = fname then some info else s.modFns m })

/-- get_function (codegen.cpp line 15): the module first, then a
declaration generated from FunctionProtos, else null. -/
def get_function (name : String) (s : CGState) : Option (String × FnInfo) × CGState :=
  match s.modFns name with
  | some info => (some (name, info), s)
  | none =>
    match s.protos name with
    | some p => (some (protoCodegen p s).1, (protoCodegen p s).2)
    | none => (none, s)

mutual

/-- The codegen methods of the ExprAST hierarchy (codegen.cpp lines 31 to
222), one case per node kind, with the state threaded in C++ evaluation
order. Results of calls are bound whole (a pair of result and state) and
used through the projections .1 and .2. -/
def codegen : Expr → CGState → Option Value × CGState
  | .num v, s => (some (.constFP v), s)
  | .var n, s =>
    match s.namedValues n with
    | none => logErrV "Unknown variable name" s
    | some v => (some v, s)
  | .bin op l r, s =>
    let resL := codegen l s
    let resR := codegen r resL.2
    match resL.1, resR.1 with
    | some lV, some rV =>
      if op = '+' then
        let e := emit (.fadd lV rV) resR.2
        (some e.1, e.2)
      else if op = '-' then
        let e := emit (.fsub lV rV) resR.2
        (some e.1, e.2)
      else if op = '*' then
        let e := emit (.fmul lV rV) resR.2
        (some e.1, e.2)
      else if op = '<' then
        let cmp := emit (.fcmpULT lV rV) resR.2
        let e := emit (.uitofp cmp.1) cmp.2
        (some e.1, e.2)
      else logErrV "invalid binary operator" resR.2
    | _, _ => (none, resR.2)
  | .call callee args, s =>
    let gf := get_function callee s
    match gf.1 with
    | none => logErrV ("Unknown function " ++ callee ++ " referenced") gf.2
    | some (fname, info) =>
      if info.args.length ≠ args.length then
        logErrV ("Incorrect number of arguments for function " ++ callee) gf.2
      else
        let resA := codegenArgs args gf.2
        match resA.1 with
        | none => (none, resA.2)
        | some vs =>
          let e := emit (.call fname vs) resA.2
          (some e.1, e.2)
  | .ite c t e, s =>
    let resC := codegen c s
    match resC.1 with
    | none => (none, resC.2)
    | some condV =>
      let bc := emit (.fcmpONE condV (.constFP 0)) resC.2
      let then_bb := newBB bc.2
      let else_bb := newBB then_bb.2
      let fin_bb := newBB else_bb.2
      let cbr := emit (.condbr bc.1 then_bb.1 else_bb.1) fin_bb.2
      let resT := codegen t (setBB then_bb.1 cbr.2)
      match resT.1 with
      | none => (none, resT.2)
      | some thenV =>
        let br1 := emit (.br fin_bb.1) resT.2
        let then_phi_bb := br1.2.curBB
        let resE := codegen e (setBB else_bb.1 br1.2)
        match resE.1 with
        | none => (none, resE.2)
        | some elseV =>
          let br2 := emit (.br fin_bb.1) resE.2
          let else_phi_bb := br2.2.curBB
          let phi := emit .phi (setBB fin_bb.1 br2.2)
          let s16 := addIncoming phi.1 else_phi_bb elseV (addIncoming phi.1 then_phi_bb thenV phi.2)
          (some phi.1, s16)
  | .forE vn st c stp b, s =>
    let resS := codegen st s
    match resS.1 with
    | none => (none, resS.2)
    | some startV =>
      let first_bb := resS.2.curBB
      let loop_bb := newBB resS.2
      let end_bb := newBB loop_bb.2
      let br0 := emit (.br loop_bb.1) end_bb.2
      let phi := emit .phi (setBB loop_bb.1 br0.2)
      let s7 := addIncoming phi.1 first_bb startV phi.2
      let old_val := s7.namedValues vn
      let resC := codegen c (setNV vn (some phi.1) s7)
      match resC.1 with
      | none => (none, resC.2)
      | some condV =>
        let bc := emit (.fcmpONE condV (.constFP 0)) resC.2
        let branch := emitI (.br end_bb.1) bc.2
        -- SplitBlockAndInsertIfThen(bc, branch, false): the block holding
        -- the branch (the current insert block; the branch is its last
        -- instruction here) is split before the branch, which moves into
        -- a new tail block; the head block ends with a conditional branch
        -- to a fresh then block or the tail; the then terminator (a
        -- branch to the tail) is returned, its parent is the then block.
        -- The code inserts into the then block and erases that
        -- terminator.
        let headBB := branch.2.curBB
        let split_bb := branch.2.nextId
        let tail_bb := branch.2.nextId + 1
        let condbrId := branch.2.nextId + 2
        let thenInstId := branch.2.nextId + 3
        let s12 : CGState := { branch.2 with
          nextId := branch.2.nextId + 4
          instrs :=
            (branch.2.instrs.map fun i => if i.id = branch.1 then { i with bb := tail_bb } else i)
            ++ [⟨condbrId, headBB, .condbr bc.1 split_bb tail_bb⟩,
                ⟨thenInstId, split_bb, .br tail_bb⟩] }
        let resB := codegen b (eraseInstr thenInstId (setBB split_bb s12))
        match resB.1 with
        | none => (none, resB.2)
        | some _ =>
          let resP := codegen stp resB.2
          match resP.1 with
          | none => (none, resP.2)
          | some stepV =>
            let nxt := emit (.fadd phi.1 stepV) resP.2
            let br3 := emit (.br loop_bb.1) (addIncoming phi.1 split_bb nxt.1 nxt.2)
            let s21 := setNV vn old_val (setBB end_bb.1 br3.2)
            (some (.constFP 0), s21)

/-- The argument-lowering loop of CallExprAST::codegen (codegen.cpp
line 76): push each lowered argument; stop at the first null. -/
def codegenArgs : List Expr → CGState → Option (List Value) × CGState
  | [], s => (some [], s)
  | a :: rest, s =>
    let resA := codegen a s
    match resA.1 with
    | none => (none, resA.2)
    | some v =>
      let resR := codegenArgs rest resA.2
      match resR.1 with
      | none => (none, resR.2)
      | some vs => (some (v :: vs), resR.2)

end

/-- The argument-binding loop of FunctionAST::codegen (codegen.cpp
line 118): NamedValues gets each argument of F under its name, in order. -/
def bindArgs (fname : String) : List String → Nat → CGState → CGState
  | [], _, s => s
  | a :: rest, i, s => bindArgs fname rest (i + 1) (setNV a (some (.argRef fname i)) s)

/-- FunctionAST::codegen (codegen.cpp line 98): register the prototype in
FunctionProtos first, resolve the function, reject a function that already
has a body in the current module, open the entry block, clear and refill
NamedValues from the argument names of the resolved function, lower the
body; on success emit the return (verification and the optimization pass
pipeline are external and change nothing observed here), on failure erase
the function from the module. -/
def functionCodegen (f : FunctionDef) (s : CGState) : Option String × CGState :=
  let p := f.proto
  let s1 := setProto p.name (some p) s
  let gf := get_function p.name s1
  match gf.1 with
  | none => (none, gf.2)
  | some (fname, info) =>
    if info.hasBlocks then
      (none, logErr ("Function " ++ p.name ++ " has already been defined") gf.2)
    else
      let bb := newBB gf.2
      let s4 := setFn fname (some { info with hasBlocks := true }) bb.2
      let s6 := { setBB bb.1 s4 with namedValues := fun _ => none }
      let s7 := bindArgs fname info.args 0 s6
      let res := codegen f.body s7
      match res.1 with
      | some retV => (some fname, (emit (.ret retV) res.2).2)
      | none => (none, setFn fname none res.2)

/-- initialize_modules_and_managers after a unit is handed to the backend:
a brand-new empty module (and builder); FunctionProtos and NamedValues are
process globals and persist. -/
def freshModule (s : CGState) : CGState :=
  { s with modFns := fun _ => none, instrs := [], phiIncoming := [], curBB := 0 }

/-- handle_definition (parser.cpp line 376) at the already-parsed level: on
codegen success the module is handed to the JIT (an external collaborator
modelled as always accepting) and a fresh module is opened; on failure the
module is kept. -/
def handleDefinition (f : FunctionDef) (s : CGState) : Option String × CGState :=
  match functionCodegen f s with
  | (some fn, s1) => (some fn, freshModule s1)
  | (none, s1) => (none, s1)

/-- handle_extern (parser.cpp line 391) at the already-parsed level: the
prototype is generated into the current module (PrototypeAST::codegen
always succeeds) and recorded in FunctionProtos; no module turnover. -/
def handleExtern (p : Proto) (s : CGState) : CGState :=
  setProto p.name (some p) (protoCodegen p s).2

/-- Prototype of a user-declared binary pipe operator at precedence 5. -/
def binPipeProto : Proto := ⟨"binary|", ["a", "b"], true, 5⟩

/-- A session state in which the function binary| is registered in
FunctionProtos and fully generated in the current module. -/
def sPipeDeclared : CGState := { initState with
  modFns := fun n => if n = "binary|" then some ⟨["a", "b"], true⟩ else none
  protos := fun n => if n = "binary|" then some binPipeProto else none }

/-- Prototype foo(a). -/
def fooProto : Proto := ⟨"foo", ["a"], false, 30⟩

/-- The definition def foo(a) a. -/
def fooDef : FunctionDef := ⟨fooProto, .var "a"⟩

/-- The definition def foo(a) b, whose body fails to lower (b unknown). -/
def fooBadDef : FunctionDef := ⟨fooProto, .var "b"⟩

/-- A session state whose prototype registry holds an older, different
prototype under the name foo, and whose module is empty. -/
def sOldFoo : CGState := { initState with
  protos := fun n => if n = "foo" then some ⟨"foo", ["x", "y"], false, 30⟩ else none }

/-- A state whose current module already holds a generated (non-empty)
function foo. -/
def sGenFoo : CGState := { initState with
  modFns := fun n => if n = "foo" then some ⟨["a"], true⟩ else none }

/-- A scope binding i to the constant 7. -/
def scopeWithI : CGState := { initState with
  namedValues := fun n => if n = "i" then some (.constFP 7) else none }

/-- The loop for i = 1, 0, 1 do 2 end, whose lowering succeeds (the
runtime iteration count is irrelevant to lowering). -/
def loopOk : Expr := .forE "i" (.num 1) (.num 0) (.num 1) (.num 2)

/-- The loop for i = 1, nope, 1 do 2 end: its condition references an
unknown variable, so lowering fails after the loop variable has been
shadowed by the induction value. -/
def loopBad : Expr := .forE "i" (.num 1) (.var "nope") (.num 1) (.num 2)

theorem logErr_protos (m : String) (s : CGState) : (logErr m s).protos = s.protos := rfl

theorem logErrV_snd_protos (m : String) (s : CGState) : ((logErrV m s).2).protos = s.protos := rfl

theorem emitI_snd_protos (k : InstrK) (s : CGState) : ((emitI k s).2).protos = s.protos := rfl

theorem emit_snd_protos (k : InstrK) (s : CGState) : ((emit k s).2).protos = s.protos := rfl

theorem newBB_snd_protos (s : CGState) : ((newBB s).2).protos = s.protos := rfl

theorem setBB_protos (b : Nat) (s : CGState) : (setBB b s).protos = s.protos := rfl

theorem setNV_protos (n : String) (v : Option Value) (s : CGState) :
    (setNV n v s).protos = s.protos := rfl

theorem addIncoming_protos (p : Value) (bb : Nat) (v : Value) (s : CGState) :
    (addIncoming p bb v s).protos = s.protos := by cases p <;> rfl

theorem eraseInstr_protos (id : Nat) (s : CGState) : (eraseInstr id s).protos = s.protos := rfl

theorem setFn_protos (n : String) (v : Option FnInfo) (s : CGState) :
    (setFn n v s).protos = s.protos := rfl

theorem protoCodegen_snd_protos (p : Proto) (s : CGState) :
    ((protoCodegen p s).2).protos = s.protos := rfl

theorem get_function_snd_protos (n : String) (s : CGState) :
    ((get_function n s).2).protos = s.protos := by
  unfold get_function
  cases hm : s.modFns n
  case none => cases hp : s.protos n <;> rfl
  case some => rfl

theorem logErr_nv (m : String) (s : CGState) : (logErr m s).namedValues = s.namedValues := rfl

theorem logErrV_snd_nv (m : String) (s : CGState) :
    ((logErrV m s).2).namedValues = s.namedValues := rfl

theorem emitI_snd_nv (k : InstrK) (s : CGState) :
    ((emitI k s).2).namedValues = s.namedValues := rfl

theorem emit_snd_nv (k : InstrK) (s : CGState) :
    ((emit k s).2).namedValues = s.namedValues := rfl

theorem newBB_snd_nv (s : CGState) : ((newBB s).2).namedValues = s.namedValues := rfl

theorem setBB_nv (b : Nat) (s : CGState) : (setBB b s).namedValues = s.namedValues := rfl

theorem addIncoming_nv (p : Value) (bb : Nat) (v : Value) (s : CGState) :
    (addIncoming p bb v s).namedValues = s.namedValues := by cases p <;> rfl

theorem eraseInstr_nv (id : Nat) (s : CGState) :
    (eraseInstr id s).namedValues = s.namedValues := rfl

theorem setFn_nv (n : String) (v : Option FnInfo) (s : CGState) :
    (setFn n v s).namedValues = s.namedValues := rfl

theorem protoCodegen_snd_nv (p : Proto) (s : CGState) :
    ((protoCodegen p s).2).namedValues = s.namedValues := rfl

theorem get_function_snd_nv (n : String) (s : CGState) :
    ((get_function n s).2).namedValues = s.namedValues := by
  unfold get_function
  cases hm : s.modFns n
  case none => cases hp : s.protos n <;> rfl
  case some => rfl

theorem setNV_nv (n : String) (v : Option Value) (s : CGState) (m : String) :
    (setNV n v s).namedValues m = if m = n then v else s.namedValues m := rfl

theorem setProto_modFns (n : String) (p : Option Proto) (s : CGState) :
    (setProto n p s).modFns = s.modFns := rfl

theorem setProto_protos_point (n : String) (p : Option Proto) (s : CGState) (m : String) :
    (setProto n p s).protos m = if m = n then p else s.protos m := rfl

theorem setFn_modFns_point (n : String) (v : Option FnInfo) (s : CGState) (m : String) :
    (setFn n v s).modFns m = if m = n then v else s.modFns m := rfl

mutual

theorem codegen_protos (e : Expr) : ∀ (s : CGState), ((codegen e s).2).protos = s.protos := by
  cases e with
  | num v => intro s; rfl
  | var n =>
    intro s
    simp only [codegen]
    cases s.namedValues n <;> rfl
  | bin op l r =>
    intro s
    have ihl := codegen_protos l
    have ihr := codegen_protos r
    simp only [codegen]
    repeat' split
    all_goals simp [emit_snd_protos, logErrV_snd_protos, ihl, ihr]
  | call callee args =>
    intro s
    have iha := codegenArgs_protos args
    simp only [codegen]
    repeat' split
    all_goals simp [emit_snd_protos, logErrV_snd_protos, get_function_snd_protos, iha]
  | ite c t e =>
    intro s
    have ihc := codegen_protos c
    have iht := codegen_protos t
    have ihe := codegen_protos e
    simp only [codegen]
    repeat' split
    all_goals simp [emit_snd_protos, newBB_snd_protos, setBB_protos, addIncoming_protos,
      ihc, iht, ihe]
  | forE vn st c stp b =>
    intro s
    have ihs := codegen_protos st
    have ihc := codegen_protos c
    have ihb := codegen_protos b
    have ihp := codegen_protos stp
    simp only [codegen]
    repeat' split
    all_goals simp [emit_snd_protos, emitI_snd_protos, newBB_snd_protos, setBB_protos,
      setNV_protos, addIncoming_protos, eraseInstr_protos, ihs, ihc, ihb, ihp]

theorem codegenArgs_protos (es : List Expr) :
    ∀ (s : CGState), ((codegenArgs es s).2).protos = s.protos := by
  cases es with
  | nil => intro s; rfl
  | cons a rest =>
    intro s
    have iha := codegen_protos a
    have ihr := codegenArgs_protos rest
    simp only [codegenArgs]
    repeat' split
    all_goals simp [iha, ihr]

end

mutual

theorem codegen_nv (e : Expr) : ∀ (s : CGState), ((codegen e s).1).isSome →
    ((codegen e s).2).namedValues = s.namedValues := by
  cases e with
  | num v => intro s _; rfl
  | var n =>
    intro s
    simp only [codegen]
    cases s.namedValues n
    · intro h; simp [logErrV, logErr] at h
    · intro _; rfl
  | bin op l r =>
    intro s
    have ihl := codegen_nv l
    have ihr := codegen_nv r
    simp only [codegen]
    repeat' split
    all_goals intro h
    all_goals simp_all [emit_snd_nv, logErrV_snd_nv, ihl, ihr]
  | call callee args =>
    intro s
    have iha := codegenArgs_nv args
    simp only [codegen]
    repeat' split
    all_goals intro h
    all_goals simp_all [emit_snd_nv, logErrV_snd_nv, get_function_snd_nv, iha]
  | ite c t e =>
    intro s
    have ihc := codegen_nv c
    have iht := codegen_nv t
    have ihe := codegen_nv e
    simp only [codegen]
    repeat' split
    all_goals intro h
    all_goals simp_all [emit_snd_nv, newBB_snd_nv, setBB_nv, addIncoming_nv, ihc, iht, ihe]
  | forE vn st c stp b =>
    intro s
    have ihs := codegen_nv st
    have ihc := codegen_nv c
    have ihb := codegen_nv b
    have ihp := codegen_nv stp
    simp only [codegen]
    repeat' split
    all_goals intro h
    all_goals try solve | simp_all
    funext m
    rcases eq_or_ne m vn with hm | hm
    all_goals simp_all [setNV_nv, emit_snd_nv, emitI_snd_nv, newBB_snd_nv, setBB_nv,
      addIncoming_nv, eraseInstr_nv, ihs, ihc, ihb, ihp]

theorem codegenArgs_nv (es : List Expr) : ∀ (s : CGState), ((codegenArgs es s).1).isSome →
    ((codegenArgs es s).2).namedValues = s.namedValues := by
  cases es with
  | nil => intro s _; rfl
  | cons a rest =>
    intro s
    have iha := codegen_nv a
    have ihr := codegenArgs_nv rest
    simp only [codegenArgs]
    repeat' split
    all_goals intro h
    all_goals simp_all [iha, ihr]

end

theorem bindArgs_protos (fname : String) (l : List String) :
    ∀ (i : Nat) (s : CGState), (bindArgs fname l i s).protos = s.protos := by
  induction l with
  | nil => intro i s; rfl
  | cons a rest ih => intro i s; simp [bindArgs, ih, setNV_protos]

theorem parse_args_loop_idents (args : List String) (rest : List Tok) :
    ∀ (h : Tok), parse_args_loop (h :: (args.map .ident ++ .ch ')' :: rest)) =
      (args, .ch ')' :: rest) := by
  induction args with
  | nil => intro h; rfl
  | cons a as ih =>
    intro h
    have h2 := ih (.ident a)
    simp only [List.map_cons, List.cons_append]
    rw [parse_args_loop]
    simp [h2]

/-- Claim C7: with the built-in precedence table, parsing the token stream
of 1+2*3 yields BinaryOp(+, 1, BinaryOp(*, 2, 3)), and parsing 2*3+1
yields BinaryOp(+, BinaryOp(*, 2, 3), 1): the higher-precedence times is
grouped into the operand of the lower-precedence plus on either side. -/
theorem c7_precedence_grouping :
    parse_expression 100 [.num 1, .ch '+', .num 2, .ch '*', .num 3] =
      .ok (.bin '+' (.num 1) (.bin '*' (.num 2) (.num 3)), []) ∧
    parse_expression 100 [.num 2, .ch '*', .num 3, .ch '+', .num 1] =
      .ok (.bin '+' (.bin '*' (.num 2) (.num 3)) (.num 1), []) :=
  ⟨rfl, rfl⟩

/-- Claim C2, counterexample: successfully parsing the prototype of
binary| at precedence 5 does not make the expression parser treat the pipe
as an operator; parsing 1|0|1 afterwards stops at the pipe and returns
NumberLiteral 1 with the remaining tokens unconsumed, not the claimed
left-associative tree. -/
theorem c2_counterexample :
    parse_prototype [.binary "|", .num 5, .ch '(', .ident "a", .ident "b", .ch ')'] =
      .ok (binPipeProto, []) ∧
    parse_expression 100 [.num 1, .ch '|', .num 0, .ch '|', .num 1] =
      .ok (.num 1, [.ch '|', .num 0, .ch '|', .num 1]) ∧
    (Expr.num 1) ≠ .bin '|' (.bin '|' (.num 1) (.num 0)) (.num 1) :=
  ⟨rfl, rfl, by simp⟩

/-- Claim C2, amended: a successfully parsed binary prototype records its
declared precedence only in the returned Prototype value; the precedence
table consulted by the parser is a fixed constant with no pipe entry, so
after declaring binary| at precedence 5 the input 1|0|1 parses as the bare
NumberLiteral 1, terminating at the undeclared operator. -/
theorem c2_table_never_extended :
    parse_prototype [.binary "|", .num 5, .ch '(', .ident "a", .ident "b", .ch ')'] =
      .ok (⟨"binary|", ["a", "b"], true, 5⟩, []) ∧
    BINOP_PRECEDENCE = [('<', 10), ('+', 20), ('-', 20), ('*', 40)] ∧
    BINOP_PRECEDENCE.lookup '|' = none ∧
    get_tok_precedence [.ch '|', .num 0, .ch '|', .num 1] = -1 ∧
    parse_expression 100 [.num 1, .ch '|', .num 0, .ch '|', .num 1] =
      .ok (.num 1, [.ch '|', .num 0, .ch '|', .num 1]) :=
  ⟨rfl, rfl, rfl, rfl, rfl⟩

/-- Claim C9, counterexample: the prototype foo(a a), which repeats the
parameter name a, is accepted by the parser as a successful parse result,
so accepted prototypes do not have pairwise-distinct parameter names. -/
theorem c9_counterexample :
    parse_prototype [.ident "foo", .ch '(', .ident "a", .ident "a", .ch ')'] =
      .ok (⟨"foo", ["a", "a"], false, 30⟩, []) ∧
    ¬ (["a", "a"] : List String).Nodup :=
  ⟨rfl, by decide⟩

/-- Claim C9, amended: the parser performs no uniqueness check on
parameter names: an identifier prototype whose parenthesized list consists
of any identifier tokens, repeated or not, parses successfully to a
Prototype carrying exactly those names in order. -/
theorem c9_params_taken_verbatim (name : String) (args : List String) (rest : List Tok) :
    parse_prototype (.ident name :: .ch '(' :: (args.map .ident ++ .ch ')' :: rest)) =
      .ok (⟨name, args, false, 30⟩, rest) := by
  simp [parse_prototype, parse_prototype_rest, curTok, nextToks, parse_args_loop_idents]

/-- Claim C5, counterexample: a prototype beginning with the unary keyword
is rejected by the prototype parser with the diagnostic about the expected
function name; the parser never synthesizes a unary operator function
name. -/
theorem c5_counterexample :
    parse_prototype [.unary "!", .ch '(', .ident "v", .ch ')'] =
      .error "Expected function name in prototype" := rfl

/-- Claim C5, amended: the prototype parser accepts only identifier and
binary prototypes; the unary keyword falls to the default case and is
rejected with the diagnostic about the expected function name, while a
binary prototype raises the operand-count diagnostic unless it has exactly
two parameters. -/
theorem c5_prototype_kinds :
    (∀ (opname : String) (ts : List Tok),
        parse_prototype (.unary opname :: ts) =
          .error "Expected function name in prototype") ∧
    (∀ (opname : String) (args : List String) (rest : List Tok), args.length ≠ 2 →
        parse_prototype (.binary opname :: .ch '(' :: (args.map .ident ++ .ch ')' :: rest)) =
          .error "Invalid number of operands for operator.") ∧
    (∀ (opname a b : String) (rest : List Tok),
        parse_prototype
            (.binary opname :: .ch '(' :: .ident a :: .ident b :: .ch ')' :: rest) =
          .ok (⟨"binary" ++ opname, [a, b], true, 30⟩, rest)) := by
  refine ⟨fun opname ts => rfl, fun opname args rest h => ?_, fun opname a b rest => ?_⟩
  · simp [parse_prototype, parse_prototype_rest, curTok, nextToks, parse_args_loop_idents, h]
  · have h2 := parse_args_loop_idents [a, b] rest (.ch '(')
    simp only [List.map_cons, List.map_nil, List.cons_append, List.nil_append] at h2
    simp [parse_prototype, parse_prototype_rest, curTok, nextToks, h2]

/-- Claim C5, witness: the unary prototype unary!(v) is rejected with the
function-name diagnostic, and the binary prototype binary|(a), which has
one parameter instead of two, is rejected with the operand-count
diagnostic. -/
theorem c5_witness :
    parse_prototype [.unary "!", .ch '(', .ident "v", .ch ')'] =
      .error "Expected function name in prototype" ∧
    (["a"] : List String).length ≠ 2 ∧
    parse_prototype [.binary "|", .ch '(', .ident "a", .ch ')'] =
      .error "Invalid number of operands for operator." :=
  ⟨c5_prototype_kinds.1 "!" [.ch '(', .ident "v", .ch ')'], by decide,
    c5_prototype_kinds.2.1 "|" ["a"] [] (by decide)⟩

/-- Claim C1, counterexample: lowering the node BinaryOp(|, 1, 2) in a
state where the function binary| is both registered in the prototype
registry and generated in the current module still fails with the
diagnostic invalid binary operator and emits no instruction, so a declared
binary| function is never resolved as a call. -/
theorem c1_counterexample :
    (codegen (.bin '|' (.num 1) (.num 2)) sPipeDeclared).1 = none ∧
    ((codegen (.bin '|' (.num 1) (.num 2)) sPipeDeclared).2).diags =
      ["invalid binary operator"] ∧
    ((codegen (.bin '|' (.num 1) (.num 2)) sPipeDeclared).2).instrs = [] ∧
    sPipeDeclared.protos "binary|" = some binPipeProto ∧
    (sPipeDeclared.modFns "binary|").isSome = true :=
  ⟨rfl, rfl, rfl, rfl, rfl⟩

/-- Claim C1, amended: for every BinaryOp node whose operator is not one
of the built-ins plus, minus, times, less-than, once both operands lower
successfully the node always fails with the diagnostic invalid binary
operator, regardless of which functions are declared; no call to a
function named from the operator symbol is ever emitted. -/
theorem c1_nonbuiltin_always_fails (op : Char) (l r : Expr) (s : CGState) (lv rv : Value)
    (hl : (codegen l s).1 = some lv)
    (hr : (codegen r (codegen l s).2).1 = some rv)
    (hop : op ∉ (['+', '-', '*', '<'] : List Char)) :
    codegen (.bin op l r) s =
      logErrV "invalid binary operator" ((codegen r (codegen l s).2).2) := by
  have h1 : op ≠ '+' := by intro hh; simp [hh] at hop
  have h2 : op ≠ '-' := by intro hh; simp [hh] at hop
  have h3 : op ≠ '*' := by intro hh; simp [hh] at hop
  have h4 : op ≠ '<' := by intro hh; simp [hh] at hop
  simp only [codegen, hl, hr]
  simp [h1, h2, h3, h4]

/-- Claim C1, witness: with both operands the literals 1 and 2 (which
lower successfully) and the pipe operator, lowering fails with the invalid
binary operator diagnostic. -/
theorem c1_witness :
    (codegen (.num 1) initState).1 = some (.constFP 1) ∧
    (codegen (.num 2) (codegen (.num 1) initState).2).1 = some (.constFP 2) ∧
    ('|' ∉ (['+', '-', '*', '<'] : List Char)) ∧
    codegen (.bin '|' (.num 1) (.num 2)) initState =
      logErrV "invalid binary operator" ((codegen (.num 2) (codegen (.num 1) initState).2).2) :=
  ⟨rfl, rfl, by decide,
    c1_nonbuiltin_always_fails '|' (.num 1) (.num 2) initState _ _ rfl rfl (by decide)⟩

/-- Claim C4, counterexample: lowering BinaryOp(+, nope, 1+2), whose left
operand is an unknown variable, still lowers the right operand: the state
after the failed node contains the fadd instruction emitted for 1+2, so
operand lowering of a BinaryOp does not short-circuit on the first failing
operand. -/
theorem c4_counterexample :
    (codegen (.bin '+' (.var "nope") (.bin '+' (.num 1) (.num 2))) initState).1 = none ∧
    ((codegen (.bin '+' (.var "nope") (.bin '+' (.num 1) (.num 2))) initState).2).instrs =
      [⟨0, 0, .fadd (.constFP 1) (.constFP 2)⟩] ∧
    ((codegen (.bin '+' (.var "nope") (.bin '+' (.num 1) (.num 2))) initState).2).diags =
      ["Unknown variable name"] :=
  ⟨rfl, rfl, rfl⟩

/-- Claim C4, amended: the argument loop of a Call short-circuits on the
first failing argument, lowering none of the later arguments and leaving
the state exactly as the failing argument left it; a BinaryOp instead
lowers both operands unconditionally, left before right, and when the left
operand fails the node fails with the state exactly as the right operand
left it, the operator instruction never being emitted. -/
theorem c4_short_circuit_shape :
    (∀ (a : Expr) (rest : List Expr) (s s1 : CGState), codegen a s = (none, s1) →
        codegenArgs (a :: rest) s = (none, s1)) ∧
    (∀ (op : Char) (l r : Expr) (s s1 : CGState), codegen l s = (none, s1) →
        codegen (.bin op l r) s = (none, (codegen r s1).2)) := by
  constructor
  · intro a rest s s1 h
    simp [codegenArgs, h]
  · intro op l r s s1 h
    have h1 : (codegen l s).1 = none := by rw [h]
    have h2 : (codegen l s).2 = s1 := by rw [h]
    simp only [codegen, h1, h2]

/-- Claim C4, witness: with the failing argument nope followed by the
literal 5, the argument loop stops at the failure, and the BinaryOp with
failing left operand fails with the state of the lowered right operand. -/
theorem c4_witness :
    codegen (.var "nope") initState = (none, logErr "Unknown variable name" initState) ∧
    codegenArgs [.var "nope", .num 5] initState =
      (none, logErr "Unknown variable name" initState) ∧
    codegen (.bin '+' (.var "nope") (.num 5)) initState =
      (none, (codegen (.num 5) (logErr "Unknown variable name" initState)).2) :=
  ⟨rfl,
    c4_short_circuit_shape.1 (.var "nope") [.num 5] initState _ rfl,
    c4_short_circuit_shape.2 '+' (.var "nope") (.num 5) initState _ rfl⟩

/-- Claim C6: for every CountingLoop node whose lowering succeeds, the
value produced for the loop expression itself is the constant 0,
regardless of the shape of the start, condition, step and body
subexpressions and of the incoming state. -/
theorem c6_loop_value_zero (vn : String) (st c stp b : Expr) (s s' : CGState) (v : Value)
    (h : codegen (.forE vn st c stp b) s = (some v, s')) : v = .constFP 0 := by
  have h1 : (codegen (.forE vn st c stp b) s).1 = some v := by rw [h]
  revert h1
  simp only [codegen]
  repeat' split
  all_goals intro h1
  all_goals simp_all

/-- Claim C6, witness: lowering the concrete loop for i = 1, 0, 1 do 2 end
succeeds and produces the constant 0. -/
theorem c6_witness :
    codegen loopOk scopeWithI = (some (.constFP 0), (codegen loopOk scopeWithI).2) ∧
    (Value.constFP 0) = .constFP 0 :=
  ⟨rfl, c6_loop_value_zero "i" (.num 1) (.num 0) (.num 1) (.num 2) scopeWithI
    ((codegen loopOk scopeWithI).2) (.constFP 0) rfl⟩

/-- Claim C8, counterexample: lowering the loop for i = 1, nope, 1 do 2
end from a scope that binds i to the constant 7 fails at the condition;
the shadowing induction value is left bound to i, so the prior binding is
not restored on this exit of lowering. -/
theorem c8_counterexample :
    (codegen loopBad scopeWithI).1 = none ∧
    ((codegen loopBad scopeWithI).2).namedValues "i" ≠ some (.constFP 7) ∧
    scopeWithI.namedValues "i" = some (.constFP 7) :=
  ⟨rfl, by decide, rfl⟩

/-- Claim C8, amended: for every CountingLoop whose variable already has a
binding in the local scope and whose lowering succeeds, the prior binding
is restored once lowering exits and every other scope entry is unchanged;
when lowering fails inside the condition, body or step, the induction
value remains bound in place of the prior binding. -/
theorem c8_scope_restored_on_success (vn : String) (st c stp b : Expr)
    (s s' : CGState) (v oldv : Value)
    (h0 : s.namedValues vn = some oldv)
    (h : codegen (.forE vn st c stp b) s = (some v, s')) :
    s'.namedValues vn = some oldv ∧
    ∀ m, m ≠ vn → s'.namedValues m = s.namedValues m := by
  have h1 : ((codegen (.forE vn st c stp b) s).1).isSome := by rw [h]; rfl
  have h2 := codegen_nv (.forE vn st c stp b) s h1
  have h3 : s' = (codegen (.forE vn st c stp b) s).2 := by rw [h]
  subst h3
  rw [h2]
  exact ⟨h0, fun m _ => rfl⟩

/-- Claim C8, witness: lowering the concrete loop for i = 1, 0, 1 do 2 end
from a scope binding i to the constant 7 succeeds, and afterwards i is
bound to the constant 7 again. -/
theorem c8_witness :
    scopeWithI.namedValues "i" = some (.constFP 7) ∧
    ((codegen loopOk scopeWithI).2).namedValues "i" = some (.constFP 7) :=
  ⟨rfl, (c8_scope_restored_on_success "i" (.num 1) (.num 0) (.num 1) (.num 2) scopeWithI
    ((codegen loopOk scopeWithI).2) (.constFP 0) (.constFP 7) rfl rfl).1⟩

/-- Claim C3, counterexample: after def foo(a) a succeeds in one
submission (which finalizes its unit and opens a fresh module while foo
stays registered), lowering the same definition again in the next
submission succeeds and prints no diagnostic, instead of failing with the
redefinition diagnostic. -/
theorem c3_counterexample :
    (handleDefinition fooDef initState).1 = some "foo" ∧
    ((handleDefinition fooDef initState).2).protos "foo" = some fooProto ∧
    (functionCodegen fooDef (handleDefinition fooDef initState).2).1 = some "foo" ∧
    ((functionCodegen fooDef (handleDefinition fooDef initState).2).2).diags = [] :=
  ⟨rfl, rfl, rfl, rfl⟩

/-- Claim C3, amended: the redefinition diagnostic fires exactly when the
current module already holds a function with a body under the name being
defined; since every successful definition is finalized into its own unit
and a fresh module is opened, a second def of the same name in a later
submission lowers successfully into the fresh unit, and extern foo(a)
followed by def foo(a) a in the same unit also succeeds. -/
theorem c3_redefinition_is_per_unit :
    (∀ (f : FunctionDef) (s : CGState) (info : FnInfo),
        s.modFns f.proto.name = some info → info.hasBlocks = true →
        functionCodegen f s =
          (none, logErr ("Function " ++ f.proto.name ++ " has already been defined")
            (setProto f.proto.name (some f.proto) s))) ∧
    (handleDefinition fooDef (handleDefinition fooDef initState).2).1 = some "foo" ∧
    ((handleDefinition fooDef (handleDefinition fooDef initState).2).2).diags = [] ∧
    (handleDefinition fooDef (handleExtern fooProto initState)).1 = some "foo" ∧
    ((handleDefinition fooDef (handleExtern fooProto initState)).2).diags = [] := by
  refine ⟨fun f s info hm hb => ?_, rfl, rfl, rfl, rfl⟩
  simp only [functionCodegen, get_function, setProto_modFns, hm, hb]
  simp

/-- Claim C3, witness: in a state whose current module already holds a
generated function foo, lowering def foo(a) a fails with the redefinition
diagnostic. -/
theorem c3_witness :
    sGenFoo.modFns "foo" = some ⟨["a"], true⟩ ∧
    (⟨["a"], true⟩ : FnInfo).hasBlocks = true ∧
    functionCodegen fooDef sGenFoo =
      (none, logErr ("Function " ++ "foo" ++ " has already been defined")
        (setProto "foo" (some fooProto) sGenFoo)) :=
  ⟨rfl, rfl, c3_redefinition_is_per_unit.1 fooDef sGenFoo ⟨["a"], true⟩ rfl rfl⟩

/-- Claim C10: registering the prototype of a definition in the
persistent registry is not rolled back on error: whenever the module does
not yet hold a generated body under the name (so resolution reaches the
body) and lowering returns failure, the prototype of the definition has
replaced any previous registry entry for that name and remains registered,
while no function under that name remains in the module. -/
theorem c10_proto_survives_failure (f : FunctionDef) (s s' : CGState)
    (hm : ∀ info, s.modFns f.proto.name = some info → info.hasBlocks = false)
    (h : functionCodegen f s = (none, s')) :
    s'.protos f.proto.name = some f.proto ∧ s'.modFns f.proto.name = none := by
  rcases hmod : s.modFns f.proto.name with _ | info
  · simp only [functionCodegen, get_function, protoCodegen, setProto_modFns, hmod,
      setProto_protos_point] at h
    simp at h
    split at h
    case h_1 => exact absurd h (by simp)
    case h_2 =>
      rw [Prod.mk.injEq] at h
      rcases h with ⟨-, hs⟩
      subst hs
      constructor
      · simp [setFn_protos, codegen_protos, bindArgs_protos, setBB_protos,
          newBB_snd_protos, setProto_protos_point]
      · simp [setFn_modFns_point, hmod]
  · have hb := hm info hmod
    simp only [functionCodegen, get_function, setProto_modFns, hmod, hb] at h
    simp at h
    split at h
    case h_1 => exact absurd h (by simp)
    case h_2 =>
      rw [Prod.mk.injEq] at h
      rcases h with ⟨-, hs⟩
      subst hs
      constructor
      · simp [setFn_protos, codegen_protos, bindArgs_protos, setBB_protos,
          newBB_snd_protos, setProto_protos_point]
      · simp [setFn_modFns_point]

/-- Claim C10, witness: lowering def foo(a) b, whose body fails, from a
state whose registry holds an older prototype for foo, leaves the new
prototype of the definition registered and no function foo in the
module. -/
theorem c10_witness :
    sOldFoo.modFns "foo" = none ∧
    functionCodegen fooBadDef sOldFoo = (none, (functionCodegen fooBadDef sOldFoo).2) ∧
    ((functionCodegen fooBadDef sOldFoo).2).protos "foo" = some fooProto ∧
    ((functionCodegen fooBadDef sOldFoo).2).modFns "foo" = none := by
  have h := c10_proto_survives_failure fooBadDef sOldFoo
      ((functionCodegen fooBadDef sOldFoo).2) (fun info hinfo => nomatch hinfo) rfl
  exact ⟨rfl, rfl, h.1, h.2⟩

end Kal
